import Mathlib

/-!
Verification of the Agentic-Email-Router repository.

The Python sources in src/agents/base_agents.py, src/agents/routing_agent.py
and src/workflow/agentic_workflow.py are shallowly embedded below.  Remote
chat-completion and embedding calls are modelled as oracle functions: a
ChatClient maps a message list and a temperature to the reply text, and the
RoutingAgent embedding endpoint is a function from text to a vector.  Python
string primitives (strip, lower, startswith, the in operator, split) are
translated as executable functions over the character list of a String.
-/

-- ===== Python string primitives =====

/-- Models Python list-prefix testing used by str.startswith. -/
def listIsPref : List Char → List Char → Bool
  | [], _ => true
  | _ :: _, [] => false
  | a :: as, b :: bs => a == b && listIsPref as bs

/-- Models s.startswith(pre) from Python. -/
def pyStartswith (s pre : String) : Bool :=
  listIsPref pre.toList s.toList

/-- Helper for substring search: tests the pattern at every suffix. -/
def subAux (pat : List Char) : List Char → Bool
  | [] => listIsPref pat []
  | c :: t => listIsPref pat (c :: t) || subAux pat t

/-- Models the Python expression pat in s (substring containment). -/
def pyIn (pat s : String) : Bool :=
  subAux pat.toList s.toList

/-- Models s.lower() from Python (ASCII case folding). -/
def pyLower (s : String) : String :=
  String.mk (s.toList.map Char.toLower)

/-- Whitespace test used by str.strip. -/
def wsp (c : Char) : Bool := c.isWhitespace

/-- Strips leading and trailing whitespace characters from a character list. -/
def stripList (l : List Char) : List Char :=
  ((l.dropWhile wsp).reverse.dropWhile wsp).reverse

/-- Models s.strip() from Python. -/
def pyStrip (s : String) : String :=
  String.mk (stripList s.toList)

/-- Models any(char.isdigit() for char in s) from Python. -/
def pyAnyDigit (s : String) : Bool :=
  s.toList.any Char.isDigit

/-- Splits a character list at every newline, keeping empty segments, as
Python s.split(chr(10)) does. -/
def splitNl : List Char → List (List Char)
  | [] => [[]]
  | c :: t =>
    if c = '\n' then [] :: splitNl t
    else
      match splitNl t with
      | [] => [[c]]
      | h :: rest => (c :: h) :: rest

/-- Models s.split(chr(10)) from Python. -/
def pySplitNl (s : String) : List String :=
  (splitNl s.toList).map String.mk

-- ===== Remote chat completion interface (external collaborator) =====

/-- A role-tagged chat message, as passed to the completions endpoint. -/
structure Message where
  role : String
  content : String
deriving DecidableEq

/-- Oracle model of the remote completion client: a message list and a
sampling temperature map to the raw reply text.  All call sites in this
repository pass temperature 0. -/
structure ChatClient where
  complete : List Message → Nat → String

-- ===== Prompt agents (src/agents/base_agents.py) =====

/-- DirectPromptAgent from base_agents.py lines 23-38. -/
structure DirectPromptAgent where
  client : ChatClient

/-- Translates DirectPromptAgent.respond: one user message, temperature 0,
reply stripped. -/
def DirectPromptAgent.respond (a : DirectPromptAgent) (prompt : String) : String :=
  pyStrip (a.client.complete [⟨"user", prompt⟩] 0)

/-- AugmentedPromptAgent from base_agents.py lines 44-68. -/
structure AugmentedPromptAgent where
  client : ChatClient
  persona : String

/-- Translates the system_prompt built in AugmentedPromptAgent.respond
(base_agents.py lines 55-58): the two adjacent f-string literals join the
sentences with a newline character. -/
def AugmentedPromptAgent.system_prompt (a : AugmentedPromptAgent) : String :=
  "You are " ++ a.persona ++ ".\n" ++ "Forget all previous context."

/-- The message list AugmentedPromptAgent.respond sends to the client. -/
def AugmentedPromptAgent.messagesFor (a : AugmentedPromptAgent) (prompt : String) :
    List Message :=
  [⟨"system", a.system_prompt⟩, ⟨"user", prompt⟩]

/-- Translates AugmentedPromptAgent.respond: system plus user message,
temperature 0, reply stripped. -/
def AugmentedPromptAgent.respond (a : AugmentedPromptAgent) (prompt : String) : String :=
  pyStrip (a.client.complete (a.messagesFor prompt) 0)

/-- KnowledgeAugmentedPromptAgent from base_agents.py lines 74-101.  Its
constructor takes exactly the keyword parameters client, persona and
knowledge_context. -/
structure KnowledgeAugmentedPromptAgent where
  client : ChatClient
  persona : String
  knowledge_context : String

/-- Translates KnowledgeAugmentedPromptAgent.respond. -/
def KnowledgeAugmentedPromptAgent.respond (a : KnowledgeAugmentedPromptAgent)
    (prompt : String) : String :=
  pyStrip (a.client.complete
    [⟨"system", "You are " ++ a.persona ++ ".\n" ++ "Use ONLY the knowledge below.\n" ++
        "Do NOT use outside knowledge.\n\n" ++ "KNOWLEDGE:\n" ++ a.knowledge_context⟩,
     ⟨"user", prompt⟩] 0)

-- ===== ActionPlanningAgent (base_agents.py lines 217-244) =====

structure ActionPlanningAgent where
  client : ChatClient
  knowledge_context : String

/-- The system prompt built in extract_steps_from_prompt. -/
def ActionPlanningAgent.system_prompt (a : ActionPlanningAgent) : String :=
  "You are an action planning agent.\n" ++ "Extract a numbered list of actionable steps.\n" ++
    "Use ONLY the provided knowledge.\n\n" ++ "KNOWLEDGE:\n" ++ a.knowledge_context

/-- The raw reply content the completion client returns to the planner. -/
def ActionPlanningAgent.rawReply (a : ActionPlanningAgent) (prompt : String) : String :=
  a.client.complete [⟨"system", a.system_prompt⟩, ⟨"user", prompt⟩] 0

/-- Translates extract_steps_from_prompt: split the raw reply on newline,
keep the lines whose stripped form is non-empty (Python truthiness), and
return those lines stripped, in order. -/
def ActionPlanningAgent.extract_steps_from_prompt (a : ActionPlanningAgent)
    (prompt : String) : List String :=
  ((pySplitNl (a.rawReply prompt)).filter (fun line => pyStrip line != "")).map pyStrip

-- ===== EvaluationAgent (base_agents.py lines 107-172) =====

/-- EvaluationAgent state: a client, a persona, the evaluation criteria, the
wrapped agent (abstracted to its respond capability), and the iteration
budget (Python default 3). -/
structure EvaluationAgent where
  client : ChatClient
  persona : String
  evaluation_criteria : String
  agent_respond : String → String
  max_interactions : Nat

/-- The evaluation prompt built at base_agents.py lines 135-140. -/
def evaluationPromptOf (persona output criteria : String) : String :=
  persona ++ "\n\n" ++ "Evaluate the following response:\n" ++ output ++
    "\n\n" ++ "Against these criteria:\n" ++ criteria ++
    "\n\n" ++ "Respond with Yes or No, followed by a brief explanation."

/-- The correction prompt built at base_agents.py lines 153-158. -/
def correctionPromptOf (output feedback : String) : String :=
  "The response failed evaluation.\n\n" ++ "Response:\n" ++ output ++
    "\n\n" ++ "Feedback:\n" ++ feedback ++
    "\n\n" ++ "Provide clear correction instructions."

/-- Raw client reply to the evaluation prompt, before stripping. -/
def EvaluationAgent.rawEvalReply (A : EvaluationAgent) (output : String) : String :=
  A.client.complete [⟨"user", evaluationPromptOf A.persona output A.evaluation_criteria⟩] 0

/-- evaluation_result as stored at base_agents.py line 142-146: the client
reply, stripped. -/
def EvaluationAgent.evalReply (A : EvaluationAgent) (output : String) : String :=
  pyStrip (A.rawEvalReply output)

/-- correction_instructions as computed at base_agents.py lines 160-164. -/
def EvaluationAgent.correctionReply (A : EvaluationAgent) (output feedback : String) : String :=
  pyStrip (A.client.complete [⟨"user", correctionPromptOf output feedback⟩] 0)

/-- The acceptance test at base_agents.py line 150:
evaluation_result.lower().startswith("yes"). -/
def acceptsEval (s : String) : Bool :=
  pyStartswith (pyLower s) "yes"

/-- The dictionary returned by EvaluationAgent.evaluate.  final_response and
evaluation start as Python None, hence the Option type. -/
structure EvalResult where
  final_response : Option String
  evaluation : Option String
  iterations : Nat
deriving DecidableEq

/-- Direct translation of the for-loop of EvaluationAgent.evaluate
(base_agents.py lines 132-166).  fuel is the number of loop passes left,
prompt the current prompt, passes the number of passes already completed;
the last two arguments carry the previously computed final_response and
evaluation_result.  The returned iterations field is the Python i + 1. -/
def evaluateLoop (A : EvaluationAgent) (task : String) :
    Nat → String → Nat → Option String → Option String → EvalResult
  | 0, _, passes, lastOut, lastEval => ⟨lastOut, lastEval, passes⟩
  | fuel + 1, prompt, passes, _, _ =>
    let agent_output := A.agent_respond prompt
    let evaluation_result := A.evalReply agent_output
    if acceptsEval evaluation_result then
      ⟨some agent_output, some evaluation_result, passes + 1⟩
    else
      evaluateLoop A task fuel
        (task ++ "\n\n" ++ "Apply these corrections:\n" ++
          A.correctionReply agent_output evaluation_result)
        (passes + 1) (some agent_output) (some evaluation_result)

/-- Translates EvaluationAgent.evaluate(task).  The Python loop over
range(max_interactions) starts with prompt = task and no recorded outputs.
(For max_interactions = 0 Python would raise UnboundLocalError at the
return statement; every claim below assumes max_interactions at least 1.) -/
def EvaluationAgent.evaluate (A : EvaluationAgent) (task : String) : EvalResult :=
  evaluateLoop A task A.max_interactions task 0 none none

-- Pass-indexed description of the same run, used to state the claims: the
-- prompt, agent output and evaluation reply the loop computes in its k-th
-- pass (0-based), independent of the iteration budget.

/-- The prompt variable at the start of pass k. -/
def promptAt (A : EvaluationAgent) (task : String) : Nat → String
  | 0 => task
  | k + 1 =>
    let output := A.agent_respond (promptAt A task k)
    task ++ "\n\n" ++ "Apply these corrections:\n" ++
      A.correctionReply output (A.evalReply output)

/-- agent_output computed in pass k. -/
def outputAt (A : EvaluationAgent) (task : String) (k : Nat) : String :=
  A.agent_respond (promptAt A task k)

/-- evaluation_result (stripped) computed in pass k. -/
def evalAt (A : EvaluationAgent) (task : String) (k : Nat) : String :=
  A.evalReply (outputAt A task k)

/-- The raw, unstripped evaluation reply of pass k. -/
def rawEvalAt (A : EvaluationAgent) (task : String) (k : Nat) : String :=
  A.rawEvalReply (outputAt A task k)

/-- Whether the acceptance test succeeds in pass k. -/
def acceptedAt (A : EvaluationAgent) (task : String) (k : Nat) : Bool :=
  acceptsEval (evalAt A task k)

/-- First accepted pass at index start or later, searching fuel passes. -/
def findAccept (A : EvaluationAgent) (task : String) : Nat → Nat → Option Nat
  | _, 0 => none
  | start, fuel + 1 =>
    if acceptedAt A task start then some start
    else findAccept A task (start + 1) fuel

-- ===== RoutingAgent (base_agents.py lines 178-211) =====

/-- One entry of the agents list: a dictionary with a description and a
handler under the key func. -/
structure Route where
  description : String
  func : String → String

/-- RoutingAgent state: the embedding endpoint (the _embed method backed by
the remote embeddings API, modelled as an oracle from text to a vector) and
the ordered route list.  Float vectors are modelled as real vectors. -/
structure RoutingAgent where
  embed : String → List ℝ
  agents : List Route

/-- Models np.dot on two equal-length vectors. -/
def dotList : List ℝ → List ℝ → ℝ
  | a :: as, b :: bs => a * b + dotList as bs
  | _, _ => 0

/-- Models np.linalg.norm: the square root of the sum of squares. -/
noncomputable def vecNorm (v : List ℝ) : ℝ :=
  Real.sqrt (dotList v v)

/-- The similarity computed at base_agents.py lines 203-205:
dot(a, b) / (norm(a) * norm(b)).  Real division is total with x / 0 = 0;
zero-norm vectors (where the Python float quotient is inf or nan) are
outside the modelled domain. -/
noncomputable def cosineSim (a b : List ℝ) : ℝ :=
  dotList a b / (vecNorm a * vecNorm b)

/-- The similarity the route loop computes for one route record. -/
noncomputable def RoutingAgent.simOf (A : RoutingAgent) (prompt : String) (r : Route) : ℝ :=
  cosineSim (A.embed prompt) (A.embed r.description)

/-- Direct translation of the selection loop of RoutingAgent.route
(base_agents.py lines 198-209): best_agent starts as None, best_score as -1,
and a route replaces the current best exactly when its score is strictly
greater. -/
noncomputable def selectBest : List (Route × ℝ) → Option Route → ℝ → Option Route
  | [], best, _ => best
  | (ag, s) :: rest, best, best_score =>
    if best_score < s then selectBest rest (some ag) s
    else selectBest rest best best_score

/-- Translates RoutingAgent.route(prompt).  Returns none when best_agent is
still None at line 211, where Python raises TypeError on None subscripting;
otherwise the winning handler is called with the original prompt. -/
noncomputable def RoutingAgent.route (A : RoutingAgent) (prompt : String) : Option String :=
  match selectBest (A.agents.map (fun ag => (ag, A.simOf prompt ag))) none (-1) with
  | some ag => some (ag.func prompt)
  | none => none

-- ===== Keyword router demo (src/agents/routing_agent.py lines 38-78) =====

/-- texas_agent from routing_agent.py lines 38-42. -/
def texas_agent (c : ChatClient) : KnowledgeAugmentedPromptAgent :=
  ⟨c, "You are a college professor.",
    pyStrip "Texas is a U.S. state. Its capital city is Austin."⟩

/-- europe_agent from routing_agent.py lines 44-48. -/
def europe_agent (c : ChatClient) : KnowledgeAugmentedPromptAgent :=
  ⟨c, "You are a college professor.",
    pyStrip "Europe is a continent that includes countries such as Italy and France."⟩

/-- math_agent from routing_agent.py lines 50-57. -/
def math_agent (c : ChatClient) : KnowledgeAugmentedPromptAgent :=
  ⟨c, "You are a college math professor.",
    pyStrip ("When a prompt contains numbers, extract the math problem " ++
      "and return only the final numeric answer without explanation.")⟩

/-- direct_agent from routing_agent.py line 59. -/
def direct_agent (c : ChatClient) : DirectPromptAgent :=
  ⟨c⟩

/-- Translates route_prompt (routing_agent.py lines 62-78): digit check
first, then texas, then italy or europe, else the direct agent; the chosen
agent receives the original prompt. -/
def route_prompt (c : ChatClient) (prompt : String) : String :=
  let prompt_lower := pyLower prompt
  if pyAnyDigit prompt_lower then (math_agent c).respond prompt
  else if pyIn "texas" prompt_lower then (texas_agent c).respond prompt
  else if pyIn "italy" prompt_lower || pyIn "europe" prompt_lower then
    (europe_agent c).respond prompt
  else (direct_agent c).respond prompt

-- ===== Planning workflow (src/workflow/agentic_workflow.py) =====

/-- The keyword parameters of KnowledgeAugmentedPromptAgent.__init__
(base_agents.py line 80). -/
def kapa_init_params : List String :=
  ["client", "persona", "knowledge_context"]

/-- The keyword arguments create_knowledge_agent passes to the constructor
(agentic_workflow.py lines 68-72). -/
def create_knowledge_agent_kwargs : List String :=
  ["client", "persona", "knowledge"]

/-- Models the Python keyword-call check: every provided keyword must be a
declared parameter and every declared parameter (none has a default) must be
provided, else the call raises TypeError. -/
def pyKwCallOk (params provided : List String) : Bool :=
  provided.all (fun k => params.contains k) && params.all (fun k => provided.contains k)

/-- Translates create_knowledge_agent (agentic_workflow.py lines 67-72): the
construction succeeds only if its keyword arguments fit the constructor,
otherwise the TypeError is modelled as an error value. -/
def create_knowledge_agent (client : ChatClient) (persona knowledge_text : String) :
    Except String KnowledgeAugmentedPromptAgent :=
  if pyKwCallOk kapa_init_params create_knowledge_agent_kwargs then
    Except.ok ⟨client, persona, knowledge_text⟩
  else
    Except.error "TypeError"

/-- Models the module-level construction of the Product Manager, Program
Manager and Development Engineer agents (agentic_workflow.py lines 74-94),
which runs before any routing or evaluation. -/
def workflow_agents_init (client : ChatClient) (product_spec : String) :
    Except String (KnowledgeAugmentedPromptAgent × KnowledgeAugmentedPromptAgent ×
      KnowledgeAugmentedPromptAgent) := do
  let pm ← create_knowledge_agent client
    "You are a Product Manager AI responsible for defining user stories."
    ("Create user stories from this product spec:\n" ++ product_spec)
  let prog ← create_knowledge_agent client
    "You are a Program Manager AI responsible for defining product features."
    ("Define product features in this format:\n" ++
      "Feature Name: ...\nDescription: ...\nKey Functionality: ...\nUser Benefit: ...\n" ++
      product_spec)
  let dev ← create_knowledge_agent client
    "You are a Development Engineer AI responsible for detailed engineering tasks."
    ("Define engineering tasks in this format:\n" ++
      "Task ID: ...\nTask Title: ...\nRelated User Story: ...\nDescription: ...\n" ++
      "Acceptance Criteria: ...\nEstimated Effort: ...\nDependencies: ...\n" ++ product_spec)
  pure (pm, prog, dev)

/-- The loop condition of evaluate_until_valid (agentic_workflow.py line
146): the lowercased response contains reject or contains correction. -/
def badResponse (response : String) : Bool :=
  pyIn "reject" (pyLower response) || pyIn "correction" (pyLower response)

/-- Translates evaluate_until_valid (agentic_workflow.py lines 143-148).
Each call of eval_agent.evaluate(step) is a fresh remote run; results k is
the final_response text of the k-th call.  fuel bounds the number of
observed calls: none means the while loop is still running after fuel
calls (the source has no iteration cap of its own). -/
def evaluate_until_valid (results : Nat → String) : Nat → Nat → Option String
  | _, 0 => none
  | k, fuel + 1 =>
    if badResponse (results k) then evaluate_until_valid results (k + 1) fuel
    else some (results k)

/-- The three values of agent_mapping (agentic_workflow.py lines 151-155). -/
inductive AgentName where
  | ProductManager
  | ProgramManager
  | DevelopmentEngineer
deriving DecidableEq

/-- Translates the classification part of route_step (agentic_workflow.py
lines 158-165): lowercase the step and test the keyword groups in order. -/
def route_step_agent (step : String) : AgentName :=
  let step_lower := pyLower step
  if pyIn "user story" step_lower || pyIn "training" step_lower then
    AgentName.ProductManager
  else if pyIn "feature" step_lower || pyIn "integration" step_lower ||
      pyIn "architecture" step_lower then
    AgentName.ProgramManager
  else
    AgentName.DevelopmentEngineer

-- ===== Concrete instances used by witnesses and counterexamples =====

/-- A client that always accepts: used to exercise the first-pass exit. -/
def wit1Client : ChatClient := ⟨fun _ _ => "Yes, the response meets the criteria."⟩

def wit1Agent : EvaluationAgent :=
  ⟨wit1Client, "an evaluator", "criteria text", fun p => p, 3⟩

/-- A client whose reply carries surrounding whitespace and lowercase yes. -/
def wit2Client : ChatClient := ⟨fun _ _ => "  yes indeed  "⟩

def wit2Agent : EvaluationAgent :=
  ⟨wit2Client, "an evaluator", "criteria text", fun p => p, 3⟩

/-- A client that always rejects: used to exercise budget exhaustion. -/
def wit3Client : ChatClient := ⟨fun _ _ => "No."⟩

def wit3Agent : EvaluationAgent :=
  ⟨wit3Client, "an evaluator", "criteria text", fun p => p, 2⟩

/-- A routing agent whose two routes tie with similarity 1. -/
noncomputable def wit4Router : RoutingAgent :=
  ⟨fun _ => [1],
   [⟨"first route", fun _ => "first handler output"⟩,
    ⟨"second route", fun _ => "second handler output"⟩]⟩

/-- A routing agent whose single route has cosine similarity exactly -1
(antipodal unit vectors), so no route ever beats the -1 sentinel. -/
noncomputable def cx4Router : RoutingAgent :=
  ⟨fun s => if s = "the prompt" then [1] else [-1],
   [⟨"the description", fun _ => "handler output"⟩]⟩

/-- An evaluate-result sequence that always contains reject. -/
def wit6bad : Nat → String := fun _ => "rejected"

/-- An evaluate-result sequence that is bad once, then clean. -/
def wit6good : Nat → String :=
  fun n => if n = 0 then "Rejected: apply the correction" else "All good"

/-- A planner whose remote reply is the two-step example with a blank line. -/
def wit8Planner : ActionPlanningAgent :=
  ⟨⟨fun _ _ => "1. Crack eggs\n\n2. Beat eggs\n"⟩, "recipe knowledge"⟩

def wit9Client : ChatClient := ⟨fun _ _ => "42"⟩

def cx10Client : ChatClient := ⟨fun _ _ => ""⟩

-- ===== Helper lemmas =====

theorem strAppend_assoc (a b c : String) : a ++ b ++ c = a ++ (b ++ c) := by
  cases a with
  | mk la =>
    cases b with
    | mk lb =>
      cases c with
      | mk lc =>
        exact congrArg String.mk (List.append_assoc la lb lc)

theorem dropWhile_head_not (p : Char → Bool) :
    ∀ (l : List Char) (c : Char) (t : List Char), l.dropWhile p = c :: t → p c = false := by
  intro l
  induction l with
  | nil => intro c t h; simp [List.dropWhile] at h
  | cons a as ih =>
    intro c t h
    rw [List.dropWhile_cons] at h
    by_cases hp : p a = true
    · rw [if_pos hp] at h
      exact ih c t h
    · rw [if_neg hp] at h
      cases h
      exact Bool.eq_false_iff.mpr hp

theorem stripList_has_content (l : List Char) (h : stripList l ≠ []) :
    ∃ c ∈ stripList l, c.isWhitespace = false := by
  rcases hi : ((l.dropWhile wsp).reverse.dropWhile wsp) with _ | ⟨c, t⟩
  · exfalso
    apply h
    unfold stripList
    rw [hi]
    rfl
  · have hc : wsp c = false := dropWhile_head_not wsp _ c t hi
    refine ⟨c, ?_, hc⟩
    unfold stripList
    rw [hi]
    exact List.mem_reverse.mpr (List.mem_cons_self c t)

theorem filter_comp_map (f : String → String) (p : String → Bool) :
    ∀ l : List String, (l.filter (fun x => p (f x))).map f = (l.map f).filter p := by
  intro l
  induction l with
  | nil => rfl
  | cons x xs ih =>
    cases hp : p (f x) <;> simp [List.filter_cons, hp, ih]

-- ===== C5 =====

/-- C5: create_knowledge_agent passes the keyword argument knowledge to a
constructor that only accepts knowledge_context, so building the Product
Manager, Program Manager or Development Engineer agent always raises
TypeError and the workflow agent initialisation never succeeds. -/
theorem create_knowledge_agent_always_type_error :
    (∀ (client : ChatClient) (persona knowledge_text : String),
      create_knowledge_agent client persona knowledge_text = Except.error "TypeError") ∧
    (∀ (client : ChatClient) (product_spec : String),
      workflow_agents_init client product_spec = Except.error "TypeError") :=
  ⟨fun _ _ _ => rfl, fun _ _ => rfl⟩

-- ===== C7 =====

/-- C7: route_step classifies a step case-insensitively with first-match-wins
precedence: user story or training go to ProductManager; otherwise feature,
integration or architecture go to ProgramManager; otherwise the step goes to
DevelopmentEngineer. -/
theorem route_step_precedence (step : String) :
    ((pyIn "user story" (pyLower step) || pyIn "training" (pyLower step)) = true →
      route_step_agent step = AgentName.ProductManager) ∧
    ((pyIn "user story" (pyLower step) || pyIn "training" (pyLower step)) = false →
      (pyIn "feature" (pyLower step) || pyIn "integration" (pyLower step) ||
        pyIn "architecture" (pyLower step)) = true →
      route_step_agent step = AgentName.ProgramManager) ∧
    ((pyIn "user story" (pyLower step) || pyIn "training" (pyLower step)) = false →
      (pyIn "feature" (pyLower step) || pyIn "integration" (pyLower step) ||
        pyIn "architecture" (pyLower step)) = false →
      route_step_agent step = AgentName.DevelopmentEngineer) := by
  refine ⟨fun h1 => ?_, fun h1 h2 => ?_, fun h1 h2 => ?_⟩
  · simp [route_step_agent, h1]
  · simp [route_step_agent, h1, h2]
  · simp [route_step_agent, h1, h2]

/-- Witness for C7: a step containing both user story and feature goes to
ProductManager, and a step containing no keyword goes to
DevelopmentEngineer. -/
theorem route_step_precedence_witness :
    route_step_agent "Draft a user story for each feature" = AgentName.ProductManager ∧
    route_step_agent "Set up CI pipeline" = AgentName.DevelopmentEngineer :=
  ⟨(route_step_precedence "Draft a user story for each feature").1 (by decide),
   (route_step_precedence "Set up CI pipeline").2.2 (by decide) (by decide)⟩

-- ===== C9 =====

/-- C9: the standalone keyword router dispatches with digit check first, then
texas, then italy or europe, else the direct agent, always handing the chosen
agent the original prompt. -/
theorem route_prompt_precedence (c : ChatClient) (prompt : String) :
    (pyAnyDigit (pyLower prompt) = true →
      route_prompt c prompt = (math_agent c).respond prompt) ∧
    (pyAnyDigit (pyLower prompt) = false → pyIn "texas" (pyLower prompt) = true →
      route_prompt c prompt = (texas_agent c).respond prompt) ∧
    (pyAnyDigit (pyLower prompt) = false → pyIn "texas" (pyLower prompt) = false →
      (pyIn "italy" (pyLower prompt) || pyIn "europe" (pyLower prompt)) = true →
      route_prompt c prompt = (europe_agent c).respond prompt) ∧
    (pyAnyDigit (pyLower prompt) = false → pyIn "texas" (pyLower prompt) = false →
      (pyIn "italy" (pyLower prompt) || pyIn "europe" (pyLower prompt)) = false →
      route_prompt c prompt = (direct_agent c).respond prompt) := by
  refine ⟨fun h1 => ?_, fun h1 h2 => ?_, fun h1 h2 h3 => ?_, fun h1 h2 h3 => ?_⟩
  · simp [route_prompt, h1]
  · simp [route_prompt, h1, h2]
  · simp [route_prompt, h1, h2, h3]
  · simp [route_prompt, h1, h2, h3]

/-- Witness for C9: a prompt with a digit that also mentions Texas goes to
the math agent. -/
theorem route_prompt_precedence_witness :
    route_prompt wit9Client "There are 20 stories about Texas" =
      (math_agent wit9Client).respond "There are 20 stories about Texas" :=
  (route_prompt_precedence wit9Client "There are 20 stories about Texas").1 (by decide)

-- ===== C6 =====

/-- C6: the outer wrapper re-runs evaluate whenever the returned text
contains reject or correction (case-insensitively), has no iteration cap, any
returned text contains neither substring, and if every evaluate result is bad
the loop never terminates. -/
theorem evaluate_until_valid_spec (results : Nat → String) :
    (∀ fuel k r, evaluate_until_valid results k fuel = some r → badResponse r = false) ∧
    (∀ k fuel, badResponse (results k) = true →
      evaluate_until_valid results k (fuel + 1) = evaluate_until_valid results (k + 1) fuel) ∧
    ((∀ n, badResponse (results n) = true) →
      ∀ fuel k, evaluate_until_valid results k fuel = none) := by
  refine ⟨?_, ?_, ?_⟩
  · intro fuel
    induction fuel with
    | zero => intro k r h; simp [evaluate_until_valid] at h
    | succ n ih =>
      intro k r h
      rw [evaluate_until_valid] at h
      by_cases hb : badResponse (results k) = true
      · rw [if_pos hb] at h
        exact ih (k + 1) r h
      · rw [if_neg hb] at h
        cases h
        exact Bool.eq_false_iff.mpr hb
  · intro k fuel h
    rw [evaluate_until_valid, if_pos h]
  · intro hall fuel
    induction fuel with
    | zero => intro k; rfl
    | succ n ih =>
      intro k
      rw [evaluate_until_valid, if_pos (hall k)]
      exact ih (k + 1)

/-- Witness for C6: a run whose second result is clean stops with that clean
text, and a run whose results always contain reject is still looping after
three full passes. -/
theorem evaluate_until_valid_spec_witness :
    badResponse "All good" = false ∧ evaluate_until_valid wit6bad 0 3 = none := by
  have hb : badResponse "rejected" = true := by decide
  exact ⟨(evaluate_until_valid_spec wit6good).1 2 0 "All good" (by decide),
    (evaluate_until_valid_spec wit6bad).2.2 (fun _ => hb) 3 0⟩

-- ===== C8 =====

/-- C8: extract_steps_from_prompt splits the raw reply on newlines, trims
each line, drops every line that is blank after trimming, and returns the
surviving trimmed lines in order; hence no returned step is empty or
whitespace-only. -/
theorem extract_steps_clean (a : ActionPlanningAgent) (prompt : String) :
    (∀ s ∈ a.extract_steps_from_prompt prompt,
      s ≠ "" ∧ ∃ c ∈ s.toList, c.isWhitespace = false) ∧
    a.extract_steps_from_prompt prompt =
      ((pySplitNl (a.rawReply prompt)).map pyStrip).filter (fun line => line != "") := by
  constructor
  · intro s hs
    unfold ActionPlanningAgent.extract_steps_from_prompt at hs
    rcases List.mem_map.mp hs with ⟨line, hline, hsimage⟩
    have hne : pyStrip line ≠ "" := by
      have hmem := (List.mem_filter.mp hline).2
      simpa using hmem
    have hlist : stripList line.toList ≠ [] := by
      intro h0
      apply hne
      unfold pyStrip
      rw [h0]
    rcases stripList_has_content _ hlist with ⟨c, hc, hcw⟩
    refine hsimage ▸ ⟨hne, ⟨c, hc, hcw⟩⟩
  · exact filter_comp_map pyStrip (fun line => line != "") _

/-- Witness for C8: the example reply yields the two trimmed steps, and the
first returned step is non-blank. -/
theorem extract_steps_clean_witness :
    ("1. Crack eggs" ≠ "" ∧ ∃ c ∈ ("1. Crack eggs").toList, c.isWhitespace = false) ∧
    wit8Planner.extract_steps_from_prompt "How do I prepare eggs?" =
      ["1. Crack eggs", "2. Beat eggs"] :=
  ⟨(extract_steps_clean wit8Planner "How do I prepare eggs?").1 "1. Crack eggs" (by decide),
   by decide⟩

-- ===== C10 =====

/-- C10 counterexample: the system message AugmentedPromptAgent.respond
actually sends joins the two sentences with a newline, not with a space, so
it differs from the claimed literal for persona P. -/
theorem augmented_messages_not_space_joined :
    AugmentedPromptAgent.messagesFor ⟨cx10Client, "P"⟩ "hi" ≠
      [⟨"system", "You are P. Forget all previous context."⟩, ⟨"user", "hi"⟩] := by
  decide

/-- C10 amended: respond sends exactly the two-message list whose system
content is the persona interpolation followed by a newline and the sentence
Forget all previous context, with temperature 0, and returns the reply text
stripped of surrounding whitespace. -/
theorem augmented_respond_spec (c : ChatClient) (persona prompt : String) :
    AugmentedPromptAgent.respond ⟨c, persona⟩ prompt =
      pyStrip (c.complete
        [⟨"system", "You are " ++ persona ++ ".\nForget all previous context."⟩,
         ⟨"user", prompt⟩] 0) := by
  have hlit : (".\n" ++ "Forget all previous context." : String) =
      ".\nForget all previous context." := rfl
  show pyStrip (c.complete
      [⟨"system", "You are " ++ persona ++ ".\n" ++ "Forget all previous context."⟩,
       ⟨"user", prompt⟩] 0) = _
  rw [strAppend_assoc, hlit]

-- ===== EvaluationAgent loop lemmas =====

theorem findAccept_some_spec (A : EvaluationAgent) (task : String) :
    ∀ (fuel start j : Nat), findAccept A task start fuel = some j →
      start ≤ j ∧ j < start + fuel ∧ acceptedAt A task j = true ∧
        ∀ i, start ≤ i → i < j → acceptedAt A task i = false := by
  intro fuel
  induction fuel with
  | zero => intro start j h; simp [findAccept] at h
  | succ n ih =>
    intro start j h
    rw [findAccept] at h
    by_cases hacc : acceptedAt A task start = true
    · rw [if_pos hacc] at h
      cases h
      exact ⟨Nat.le_refl _, by omega, hacc, fun i h1 h2 => by omega⟩
    · rw [if_neg hacc] at h
      rcases ih (start + 1) j h with ⟨h1, h2, h3, h4⟩
      refine ⟨by omega, by omega, h3, ?_⟩
      intro i hi1 hi2
      rcases Nat.eq_or_lt_of_le hi1 with he | hlt
      · exact he ▸ Bool.eq_false_iff.mpr hacc
      · exact h4 i hlt hi2

theorem findAccept_none_spec (A : EvaluationAgent) (task : String) :
    ∀ (fuel start : Nat), findAccept A task start fuel = none →
      ∀ i, start ≤ i → i < start + fuel → acceptedAt A task i = false := by
  intro fuel
  induction fuel with
  | zero => intro start _ i h1 h2; omega
  | succ n ih =>
    intro start h i h1 h2
    rw [findAccept] at h
    by_cases hacc : acceptedAt A task start = true
    · rw [if_pos hacc] at h
      cases h
    · rw [if_neg hacc] at h
      rcases Nat.eq_or_lt_of_le h1 with he | hlt
      · exact he ▸ Bool.eq_false_iff.mpr hacc
      · exact ih (start + 1) h i hlt (by omega)

theorem findAccept_eq_none (A : EvaluationAgent) (task : String) :
    ∀ (fuel start : Nat),
      (∀ i, start ≤ i → i < start + fuel → acceptedAt A task i = false) →
      findAccept A task start fuel = none := by
  intro fuel
  induction fuel with
  | zero => intro start _; rfl
  | succ n ih =>
    intro start hall
    rw [findAccept, if_neg]
    · exact ih (start + 1) (fun i h1 h2 => hall i (by omega) (by omega))
    · intro hacc
      have := hall start (Nat.le_refl _) (by omega)
      rw [hacc] at this
      cases this

theorem findAccept_eq_some (A : EvaluationAgent) (task : String) :
    ∀ (fuel start j : Nat), start ≤ j → j < start + fuel →
      acceptedAt A task j = true →
      (∀ i, start ≤ i → i < j → acceptedAt A task i = false) →
      findAccept A task start fuel = some j := by
  intro fuel
  induction fuel with
  | zero => intro start j h1 h2; omega
  | succ n ih
  =>
    intro start j h1 h2 hj hmin
    rcases Nat.eq_or_lt_of_le h1 with he | hlt
    · rw [findAccept, if_pos (he ▸ hj)]
      rw [he]
    · rw [findAccept, if_neg]
      · exact ih (start + 1) j hlt (by omega) hj
          (fun i hi1 hi2 => hmin i (by omega) hi2)
      · intro hacc
        have := hmin start (Nat.le_refl _) hlt
        rw [hacc] at this
        cases this

theorem evaluateLoop_accept (A : EvaluationAgent) (task : String) :
    ∀ (fuel k j : Nat) (lo le : Option String),
      findAccept A task k fuel = some j →
      evaluateLoop A task fuel (promptAt A task k) k lo le =
        ⟨some (outputAt A task j), some (evalAt A task j), j + 1⟩ := by
  intro fuel
  induction fuel with
  | zero => intro k j lo le h; simp [findAccept] at h
  | succ n ih =>
    intro k j lo le h
    rw [findAccept] at h
    by_cases hacc : acceptedAt A task k = true
    · rw [if_pos hacc] at h
      cases h
      have hcond : acceptsEval (A.evalReply (A.agent_respond (promptAt A task k))) = true := hacc
      rw [evaluateLoop, if_pos hcond]
      rfl
    · rw [if_neg hacc] at h
      have hcond : ¬ acceptsEval (A.evalReply (A.agent_respond (promptAt A task k))) = true := hacc
      rw [evaluateLoop, if_neg hcond]
      exact ih (k + 1) j (some (outputAt A task k)) (some (evalAt A task k)) h

theorem evaluateLoop_exhaust (A : EvaluationAgent) (task : String) :
    ∀ (fuel k : Nat) (lo le : Option String), 1 ≤ fuel →
      findAccept A task k fuel = none →
      evaluateLoop A task fuel (promptAt A task k) k lo le =
        ⟨some (outputAt A task (k + fuel - 1)), some (evalAt A task (k + fuel - 1)), k + fuel⟩ := by
  intro fuel
  induction fuel with
  | zero => intro k lo le h; omega
  | succ n ih =>
    intro k lo le _ h
    rw [findAccept] at h
    by_cases hacc : acceptedAt A task k = true
    · rw [if_pos hacc] at h
      cases h
    · rw [if_neg hacc] at h
      have hcond : ¬ acceptsEval (A.evalReply (A.agent_respond (promptAt A task k))) = true := hacc
      rw [evaluateLoop, if_neg hcond]
      cases n with
      | zero => exact rfl
      | succ m =>
        have hres := ih (k + 1) (some (outputAt A task k)) (some (evalAt A task k))
          (by omega) h
        have hsh : (task ++ "\n\n" ++ "Apply these corrections:\n" ++
            A.correctionReply (A.agent_respond (promptAt A task k))
              (A.evalReply (A.agent_respond (promptAt A task k)))) = promptAt A task (k + 1) := rfl
        rw [hsh]
        show evaluateLoop A task (m + 1) (promptAt A task (k + 1)) (k + 1)
          (some (outputAt A task k)) (some (evalAt A task k)) = _
        rw [hres]
        have e1 : k + 1 + (m + 1) - 1 = k + (m + 1 + 1) - 1 := by omega
        have e2 : k + 1 + (m + 1) = k + (m + 1 + 1) := by omega
        rw [e1, e2]

theorem evaluate_as_loop (A : EvaluationAgent) (task : String) :
    A.evaluate task = evaluateLoop A task A.max_interactions (promptAt A task 0) 0 none none := rfl

-- ===== C1 =====

/-- C1: for max_interactions at least 1, the returned iterations field lies
between 1 and max_interactions; it is the 1-based index of the first loop
pass whose acceptance test succeeded, or max_interactions when no pass was
accepted. -/
theorem evaluate_iterations_spec (A : EvaluationAgent) (task : String)
    (hmax : 1 ≤ A.max_interactions) :
    1 ≤ (A.evaluate task).iterations ∧
    (A.evaluate task).iterations ≤ A.max_interactions ∧
    ((∃ k, k < A.max_interactions ∧ acceptedAt A task k = true) →
      ∃ k, k < A.max_interactions ∧ acceptedAt A task k = true ∧
        (∀ j, j < k → acceptedAt A task j = false) ∧
        (A.evaluate task).iterations = k + 1) ∧
    ((∀ k, k < A.max_interactions → acceptedAt A task k = false) →
      (A.evaluate task).iterations = A.max_interactions) := by
  rcases hfa : findAccept A task 0 A.max_interactions with _ | j
  · have hits : (A.evaluate task).iterations = A.max_interactions := by
      rw [evaluate_as_loop,
        evaluateLoop_exhaust A task A.max_interactions 0 none none hmax hfa]
      simp
    have hrej := findAccept_none_spec A task A.max_interactions 0 hfa
    refine ⟨by omega, by omega, ?_, fun _ => hits⟩
    rintro ⟨k, hk, hacc⟩
    have hfalse := hrej k (Nat.zero_le _) (by omega)
    rw [hacc] at hfalse
    cases hfalse
  · rcases findAccept_some_spec A task A.max_interactions 0 j hfa with ⟨_, hj2, hj3, hj4⟩
    have hits : (A.evaluate task).iterations = j + 1 := by
      rw [evaluate_as_loop,
        evaluateLoop_accept A task A.max_interactions 0 j none none hfa]
    refine ⟨by omega, by omega, ?_, ?_⟩
    · intro _
      exact ⟨j, by omega, hj3, fun i hi => hj4 i (Nat.zero_le _) hi, hits⟩
    · intro hall
      have hfalse := hall j (by omega)
      rw [hj3] at hfalse
      cases hfalse

/-- Witness for C1: a run over a budget of 3 whose client always accepts. -/
theorem evaluate_iterations_spec_witness :
    1 ≤ (wit1Agent.evaluate "the task").iterations ∧
    (wit1Agent.evaluate "the task").iterations ≤ wit1Agent.max_interactions :=
  ⟨(evaluate_iterations_spec wit1Agent "the task" (by decide)).1,
   (evaluate_iterations_spec wit1Agent "the task" (by decide)).2.1⟩

-- ===== C2 =====

/-- C2: within the budget, a pass accepts the candidate exactly when the raw
evaluation reply, stripped of surrounding whitespace and lowercased, starts
with the literal yes; expressed through the observable iteration count of
the pass at which the loop stops. -/
theorem evaluate_acceptance_iff (A : EvaluationAgent) (task : String) (k : Nat)
    (hk : k + 1 < A.max_interactions)
    (hprev : ∀ j, j < k → acceptedAt A task j = false) :
    (A.evaluate task).iterations = k + 1 ↔
      pyStartswith (pyLower (pyStrip (rawEvalAt A task k))) "yes" = true := by
  have hrhs : (pyStartswith (pyLower (pyStrip (rawEvalAt A task k))) "yes" = true) =
      (acceptedAt A task k = true) := rfl
  rw [hrhs]
  constructor
  · intro hits
    by_cases hacc : acceptedAt A task k = true
    · exact hacc
    · exfalso
      rcases hfa : findAccept A task 0 A.max_interactions with _ | j
      · have hmaxits : (A.evaluate task).iterations = A.max_interactions := by
          rw [evaluate_as_loop,
            evaluateLoop_exhaust A task A.max_interactions 0 none none (by omega) hfa]
          simp
        omega
      · rcases findAccept_some_spec A task A.max_interactions 0 j hfa with ⟨_, hj2, hj3, hj4⟩
        have hits2 : (A.evaluate task).iterations = j + 1 := by
          rw [evaluate_as_loop,
            evaluateLoop_accept A task A.max_interactions 0 j none none hfa]
        have hjk : j = k := by omega
        exact hacc (hjk ▸ hj3)
  · intro hacc
    have hfa : findAccept A task 0 A.max_interactions = some k :=
      findAccept_eq_some A task A.max_interactions 0 k (Nat.zero_le _) (by omega) hacc
        (fun i _ hik => hprev i hik)
    rw [evaluate_as_loop,
      evaluateLoop_accept A task A.max_interactions 0 k none none hfa]

/-- Witness for C2: a reply with surrounding whitespace and lowercase yes is
accepted in the first pass. -/
theorem evaluate_acceptance_iff_witness :
    (wit2Agent.evaluate "the task").iterations = 1 :=
  (evaluate_acceptance_iff wit2Agent "the task" 0 (by decide)
    (fun j hj => absurd hj (Nat.not_lt_zero j))).mpr (by decide)

-- ===== C3 =====

/-- C3: when every pass rejects, evaluate neither raises nor flags failure:
it returns the last computed agent output and the last evaluation reply with
iterations equal to max_interactions. -/
theorem evaluate_exhaustion (A : EvaluationAgent) (task : String)
    (hmax : 1 ≤ A.max_interactions)
    (hrej : ∀ k, k < A.max_interactions → acceptedAt A task k = false) :
    A.evaluate task =
      ⟨some (outputAt A task (A.max_interactions - 1)),
       some (evalAt A task (A.max_interactions - 1)), A.max_interactions⟩ := by
  have hfa : findAccept A task 0 A.max_interactions = none :=
    findAccept_eq_none A task A.max_interactions 0 (fun i _ hi => hrej i (by omega))
  rw [evaluate_as_loop,
    evaluateLoop_exhaust A task A.max_interactions 0 none none hmax hfa]
  simp

/-- Witness for C3: a client that always replies No exhausts a budget of 2
and hands back the second-pass output and reply. -/
theorem evaluate_exhaustion_witness :
    wit3Agent.evaluate "the task" =
      ⟨some (outputAt wit3Agent "the task" 1), some (evalAt wit3Agent "the task" 1), 2⟩ :=
  evaluate_exhaustion wit3Agent "the task" (by decide)
    (by
      intro k hk
      replace hk : k < 2 := hk
      interval_cases k
      · decide
      · decide)

-- ===== RoutingAgent selection lemmas =====

theorem selectBest_keep (l : List (Route × ℝ)) :
    ∀ (best : Option Route) (bs : ℝ), (∀ p ∈ l, p.2 ≤ bs) →
      selectBest l best bs = best := by
  induction l with
  | nil => intro best bs _; rfl
  | cons hd tl ih =>
    intro best bs hall
    rcases hd with ⟨ag, s⟩
    rw [selectBest, if_neg (not_lt.mpr (hall (ag, s) (List.mem_cons_self _ _)))]
    exact ih best bs (fun p hp => hall p (List.mem_cons_of_mem _ hp))

theorem selectBest_first (l : List (Route × ℝ)) :
    ∀ (i : Nat) (hi : i < l.length) (best : Option Route) (bs : ℝ),
      bs < (l.get ⟨i, hi⟩).2 →
      (∀ p ∈ l.take i, p.2 < (l.get ⟨i, hi⟩).2) →
      (∀ p ∈ l.drop i, p.2 ≤ (l.get ⟨i, hi⟩).2) →
      selectBest l best bs = some (l.get ⟨i, hi⟩).1 := by
  induction l with
  | nil => intro i hi; simp at hi
  | cons hd tl ih =>
    intro i hi best bs hbs htake hdrop
    rcases hd with ⟨ag, s⟩
    cases i with
    | zero =>
      have hbs0 : bs < s := hbs
      rw [selectBest, if_pos hbs0]
      apply selectBest_keep
      intro p hp
      exact hdrop p (List.mem_cons_of_mem _ hp)
    | succ j =>
      have hj : j < tl.length := by
        have hlen := hi
        simp [List.length_cons] at hlen
        omega
      have htake2 : ∀ p ∈ tl.take j, p.2 < (tl.get ⟨j, hj⟩).2 := fun p hp =>
        htake p (by rw [List.take_succ_cons]; exact List.mem_cons_of_mem _ hp)
      have hdrop2 : ∀ p ∈ tl.drop j, p.2 ≤ (tl.get ⟨j, hj⟩).2 := fun p hp =>
        hdrop p (by rw [List.drop_succ_cons]; exact hp)
      have hhead : s < (tl.get ⟨j, hj⟩).2 :=
        htake (ag, s) (by rw [List.take_succ_cons]; exact List.mem_cons_self _ _)
      rw [selectBest]
      by_cases hb : bs < s
      · rw [if_pos hb]
        exact ih j hj (some ag) s hhead htake2 hdrop2
      · rw [if_neg hb]
        exact ih j hj best bs hbs htake2 hdrop2

-- ===== C4 =====

/-- C4 counterexample: a non-empty route list on which route calls no
handler at all: with antipodal unit embeddings the single route has cosine
similarity exactly -1, never strictly better than the sentinel, so
best_agent stays None and line 211 raises TypeError (modelled as none). -/
theorem route_all_below_sentinel_crashes :
    cx4Router.agents ≠ [] ∧ cx4Router.route "the prompt" = none := by
  have hsim : cx4Router.simOf "the prompt"
      ⟨"the description", fun _ => "handler output"⟩ = -1 := by
    simp [cx4Router, RoutingAgent.simOf, cosineSim, vecNorm, dotList]
  constructor
  · simp [cx4Router]
  · have hkeep : selectBest
        (cx4Router.agents.map (fun ag => (ag, cx4Router.simOf "the prompt" ag)))
        none (-1) = none := by
      apply selectBest_keep
      intro p hp
      rcases List.mem_map.mp hp with ⟨r, hr, rfl⟩
      have hrd : r = ⟨"the description", fun _ => "handler output"⟩ := by
        simpa [cx4Router] using hr
      rw [hrd, hsim]
    unfold RoutingAgent.route
    rw [hkeep]

/-- C4 amended: for a route list in which route i is the earliest maximum of
the cosine similarities and beats the -1 sentinel, route invokes exactly that
route, handing its handler the original prompt.  (The claim as frozen also
covered lists whose similarities are all at most -1; the counterexample
shows route then calls no handler, so that hypothesis is required.) -/
theorem route_first_max_wins (A : RoutingAgent) (prompt : String) (i : Nat)
    (hi : i < A.agents.length)
    (hgt : -1 < A.simOf prompt (A.agents.get ⟨i, hi⟩))
    (hbefore : ∀ r ∈ A.agents.take i,
      A.simOf prompt r < A.simOf prompt (A.agents.get ⟨i, hi⟩))
    (hafter : ∀ r ∈ A.agents.drop i,
      A.simOf prompt r ≤ A.simOf prompt (A.agents.get ⟨i, hi⟩)) :
    A.route prompt = some ((A.agents.get ⟨i, hi⟩).func prompt) := by
  have hlen : i < (A.agents.map (fun ag => (ag, A.simOf prompt ag))).length := by
    simpa using hi
  have hget : (A.agents.map (fun ag => (ag, A.simOf prompt ag))).get ⟨i, hlen⟩ =
      (A.agents.get ⟨i, hi⟩, A.simOf prompt (A.agents.get ⟨i, hi⟩)) := by
    simp [List.get_map]
  have htk : ∀ p ∈ (A.agents.map (fun ag => (ag, A.simOf prompt ag))).take i,
      p.2 < ((A.agents.map (fun ag => (ag, A.simOf prompt ag))).get ⟨i, hlen⟩).2 := by
    intro p hp
    rw [hget]
    rw [← List.map_take] at hp
    rcases List.mem_map.mp hp with ⟨r, hr, rfl⟩
    exact hbefore r hr
  have hdp : ∀ p ∈ (A.agents.map (fun ag => (ag, A.simOf prompt ag))).drop i,
      p.2 ≤ ((A.agents.map (fun ag => (ag, A.simOf prompt ag))).get ⟨i, hlen⟩).2 := by
    intro p hp
    rw [hget]
    rw [← List.map_drop] at hp
    rcases List.mem_map.mp hp with ⟨r, hr, rfl⟩
    exact hafter r hr
  have hbs : (-1 : ℝ) <
      ((A.agents.map (fun ag => (ag, A.simOf prompt ag))).get ⟨i, hlen⟩).2 := by
    rw [hget]
    exact hgt
  have hsel := selectBest_first _ i hlen none (-1) hbs htk hdp
  rw [hget] at hsel
  unfold RoutingAgent.route
  rw [hsel]

/-- Witness for C4: two routes with tied similarity 1; the first registered
route wins and its handler receives the original prompt. -/
theorem route_first_max_wins_witness :
    wit4Router.route "the prompt" = some "first handler output" := by
  have hsim : ∀ r : Route, wit4Router.simOf "the prompt" r = 1 := by
    intro r
    simp [wit4Router, RoutingAgent.simOf, cosineSim, vecNorm, dotList, Real.sqrt_one]
  have happ := route_first_max_wins wit4Router "the prompt" 0 (by simp [wit4Router])
    (by rw [hsim]; norm_num)
    (by intro r hr; simp at hr)
    (by intro r hr; simp [hsim])
  exact happ.trans rfl
